import Mathlib

/-!
Verification of the clip-bridge clipboard synchronization bridge.

Shallow embedding of the repository's data model and the pure decision
logic of its three components:

* `lib.rs`   — `ClipboardContent`, `ClipboardType`, `SyncEvent`;
* `main.rs`  — the sync loop (the Reconciler): two ledger cells
  (`x11_content`, `primary_content`, both `Option<String>`) and the
  per-event match that decides whether to forward a set-clipboard
  command to the opposite side;
* `wayland.rs` — the offer-drain worker (probe list, collected MIME map,
  text preference), the inline text-MIME test, and
  `set_clipboard_content` (source replacement order), modelled as a
  trace of protocol operations;
* `x11.rs`   — `handle_selection_notify`, `handle_xfixes_selection_notify`
  and one iteration of `run_event_loop`.

Modelling conventions: a Rust `String` is represented by its byte list
(`Bytes`); `String::from_utf8` is represented by a UTF-8 validity check
returning the same bytes; connection I/O is assumed to succeed (the
`map_err` arms on connection calls are unreachable in the pure model),
so the only fallible step that remains is UTF-8 decoding, exactly the
fallible step of the source's pure logic.  X atoms are natural numbers
(`NONE = 0`); the reply of the `get_property` round-trip is passed to
the handler as a parameter.
-/

namespace ClipBridge

/-- Byte sequences (Rust `Vec<u8>` / the bytes of a Rust `String`). -/
abbrev Bytes := List Nat

/-- UTF-8 continuation byte: `0x80 ≤ b ≤ 0xBF`. -/
def isCont (b : Nat) : Bool := 0x80 ≤ b && b ≤ 0xBF

/-- RFC 3629 UTF-8 validity of a byte sequence (no overlong forms, no
surrogates, code points ≤ U+10FFFF); this is the acceptance condition of
Rust's `String::from_utf8`. -/
def validUtf8 : Bytes → Bool
  | [] => true
  | b :: rest =>
    if b ≤ 0x7F then validUtf8 rest
    else if 0xC2 ≤ b && b ≤ 0xDF then
      match rest with
      | c1 :: rest2 => isCont c1 && validUtf8 rest2
      | [] => false
    else if b == 0xE0 then
      match rest with
      | c1 :: c2 :: rest2 =>
          (0xA0 ≤ c1 && c1 ≤ 0xBF) && isCont c2 && validUtf8 rest2
      | _ => false
    else if (0xE1 ≤ b && b ≤ 0xEC) || b == 0xEE || b == 0xEF then
      match rest with
      | c1 :: c2 :: rest2 => isCont c1 && isCont c2 && validUtf8 rest2
      | _ => false
    else if b == 0xED then
      match rest with
      | c1 :: c2 :: rest2 =>
          (0x80 ≤ c1 && c1 ≤ 0x9F) && isCont c2 && validUtf8 rest2
      | _ => false
    else if b == 0xF0 then
      match rest with
      | c1 :: c2 :: c3 :: rest2 =>
          (0x90 ≤ c1 && c1 ≤ 0xBF) && isCont c2 && isCont c3 && validUtf8 rest2
      | _ => false
    else if 0xF1 ≤ b && b ≤ 0xF3 then
      match rest with
      | c1 :: c2 :: c3 :: rest2 =>
          isCont c1 && isCont c2 && isCont c3 && validUtf8 rest2
      | _ => false
    else if b == 0xF4 then
      match rest with
      | c1 :: c2 :: c3 :: rest2 =>
          (0x80 ≤ c1 && c1 ≤ 0x8F) && isCont c2 && isCont c3 && validUtf8 rest2
      | _ => false
    else false

/-- Rust `String::from_utf8(v)`: the same bytes on success, failure on invalid
UTF-8. -/
def from_utf8 (v : Bytes) : Option Bytes :=
  if validUtf8 v then some v else none

/-- Rust `v.iter().map(|&b| b as char).collect::<String>()` — Latin-1 decode;
the resulting Rust `String`, as bytes, UTF-8-encodes each input byte. -/
def latin1Decode (v : Bytes) : Bytes :=
  v.flatMap fun b =>
    if b ≤ 0x7F then [b]
    else [0xC0 + b / 64, 0x80 + b % 64]

-- ===========================================================================
-- lib.rs — data model
-- ===========================================================================

/-- Rust `ClipboardType` (`lib.rs`). -/
inductive ClipboardType
  | clipboard
  | primary
  deriving DecidableEq, Repr

/-- A Rust `HashMap<String, Vec<u8>>`, as an association list with unique
keys; only `insert`, `get`, `keys`, `is_empty` and `len` are used by the
source, none of which depends on iteration order. -/
abbrev MimeMap := List (String × Bytes)

/-- Rust `HashMap::insert` (replace the entry when the key is present). -/
def mimeInsert (m : MimeMap) (k : String) (v : Bytes) : MimeMap :=
  match m with
  | [] => [(k, v)]
  | (k', v') :: rest =>
    if k' = k then (k, v) :: rest else (k', v') :: mimeInsert rest k v

/-- Rust `HashMap::get`. -/
def mimeGet (m : MimeMap) (k : String) : Option Bytes :=
  match m with
  | [] => none
  | (k', v') :: rest => if k' = k then some v' else mimeGet rest k

/-- Rust `ClipboardContent` (`lib.rs`): `Text` carries the bytes of the Rust
`String`. -/
inductive ClipboardContent
  | text (s : Bytes)
  | binary (m : MimeMap)
  | empty
  deriving DecidableEq, Repr

namespace ClipboardContent

/-- Rust `ClipboardContent::new_binary` (`lib.rs`):
`ClipboardContent::Binary(HashMap::new())`. -/
def new_binary : ClipboardContent := .binary []

/-- Rust `ClipboardContent::add_mime`: inserts into the map of a `Binary`
value, otherwise leaves the value unchanged. -/
def add_mime (c : ClipboardContent) (mime_type : String) (data : Bytes) :
    ClipboardContent :=
  match c with
  | .binary m => .binary (mimeInsert m mime_type data)
  | _ => c

/-- Rust `ClipboardContent::get_mime`. -/
def get_mime (c : ClipboardContent) (mime_type : String) : Option Bytes :=
  match c with
  | .binary m => mimeGet m mime_type
  | _ => none

/-- Rust `ClipboardContent::get_text`. -/
def get_text (c : ClipboardContent) : Option Bytes :=
  match c with
  | .text s => some s
  | _ => none

/-- Rust `ClipboardContent::has_binary`. -/
def has_binary (c : ClipboardContent) : Bool :=
  match c with
  | .binary _ => true
  | _ => false

/-- Rust `ClipboardContent::mime_types`: the key list of a `Binary` map, `[]`
otherwise. -/
def mime_types (c : ClipboardContent) : List String :=
  match c with
  | .binary m => m.map Prod.fst
  | _ => []

end ClipboardContent

/-- Rust `SyncEvent` (`lib.rs`). -/
inductive SyncEvent
  | x11ToWayland (content : ClipboardContent) (clipboard_type : ClipboardType)
  | waylandToX11 (content : ClipboardContent) (clipboard_type : ClipboardType)
  deriving DecidableEq, Repr

/-- The side a `SyncEvent` originates from. -/
inductive Side
  | x11
  | wayland
  deriving DecidableEq, Repr

/-- Build the `SyncEvent` an adapter on `side` emits. -/
def mkSyncEvent (side : Side) (content : ClipboardContent)
    (t : ClipboardType) : SyncEvent :=
  match side with
  | .x11 => .x11ToWayland content t
  | .wayland => .waylandToX11 content t

-- ===========================================================================
-- main.rs — the sync loop (Reconciler)
-- ===========================================================================

/-- The sync loop's ledger (`main.rs`): `x11_content` and
`primary_content`, both `Option<String>`. -/
structure SyncState where
  x11_content : Option Bytes
  primary_content : Option Bytes
  deriving DecidableEq, Repr

/-- A message on one of the set-clipboard channels
(`(String, ClipboardType)`): `setWayland` is a send on
`set_wayland_clipboard_tx`, `setX11` on `set_x11_clipboard_tx`. -/
inductive SetCmd
  | setWayland (text : Bytes) (t : ClipboardType)
  | setX11 (text : Bytes) (t : ClipboardType)
  deriving DecidableEq, Repr

/-- One step of the sync loop of `main.rs` on a received event: the new
ledger and the list of set-clipboard commands sent, in order.  The
source's `match content` has arms for `Text` and `Empty` only; a
`Binary` content reaches no arm (the match in the source is not
exhaustive), so the step is undefined (`none`) there. -/
def syncStep (st : SyncState) (ev : SyncEvent) :
    Option (SyncState × List SetCmd) :=
  match ev with
  | .x11ToWayland content clipboard_type =>
    match content with
    | .text t =>
      match clipboard_type with
      | .clipboard =>
        if st.x11_content ≠ some t then
          some ({ st with x11_content := some t },
                [.setWayland t .clipboard])
        else
          some (st, [])
      | .primary =>
        if st.primary_content ≠ some t then
          some ({ st with primary_content := some t },
                [.setWayland t .primary])
        else
          some (st, [])
    | .empty =>
      match clipboard_type with
      | .clipboard => some ({ st with x11_content := none }, [])
      | .primary => some ({ st with primary_content := none }, [])
    | .binary _ => none
  | .waylandToX11 content clipboard_type =>
    match content with
    | .text t =>
      match clipboard_type with
      | .clipboard =>
        if st.x11_content ≠ some t then
          some ({ st with x11_content := some t },
                [.setX11 t .clipboard])
        else
          some (st, [])
      | .primary =>
        if st.primary_content ≠ some t then
          some ({ st with primary_content := some t },
                [.setX11 t .primary])
        else
          some (st, [])
    | .empty =>
      match clipboard_type with
      | .clipboard => some ({ st with x11_content := none }, [])
      | .primary => some ({ st with primary_content := none }, [])
    | .binary _ => none

/-- The ledger cell the sync loop uses for a kind. -/
def ledgerFor (st : SyncState) (t : ClipboardType) : Option Bytes :=
  match t with
  | .clipboard => st.x11_content
  | .primary => st.primary_content

/-- Structural equality between the sync loop's ledger cell
(`Option<String>`) and an observed `ClipboardContent`: a `Text` matches
a ledger holding exactly its string, `Empty` matches an empty ledger
cell, and a `Binary` never matches (the ledger cannot hold one). -/
def ledgerMatches (l : Option Bytes) : ClipboardContent → Bool
  | .text s => l == some s
  | .empty => l == none
  | .binary _ => false

/-- The side a `SetCmd` is delivered to. -/
def cmdTarget : SetCmd → Side
  | .setWayland _ _ => .wayland
  | .setX11 _ _ => .x11

/-- The side opposite to `s`. -/
def opposite : Side → Side
  | .x11 => .wayland
  | .wayland => .x11

-- ===========================================================================
-- wayland.rs — offer-drain worker (Selection arm of the device dispatch)
-- ===========================================================================

/-- The inline text-MIME test of the drain worker (`wayland.rs`, inside
the Selection arm): `mime.starts_with("text/") || mime == "UTF8_STRING"
|| mime == "STRING"`.  Rust's `str::starts_with` with a literal pattern
is a prefix test, modelled here on the character sequence. -/
def isTextMime (mime : String) : Bool :=
  ("text/").data.isPrefixOf mime.data || mime == "UTF8_STRING" ||
    mime == "STRING"

/-- The fixed probe list of the drain worker (`wayland.rs`). -/
def probeMimes : List String :=
  ["text/plain;charset=utf-8", "text/plain", "UTF8_STRING",
   "image/png", "image/bmp", "image/jpeg"]

/-- One iteration of the drain worker's probe loop: given the bytes the
offer delivered for `mime` (empty when the pipe yielded nothing), fold
the `(all_data, has_text)` accumulator exactly as the loop body does. -/
def probeStep (recv : String → Bytes) (acc : MimeMap × Bool)
    (mime : String) : MimeMap × Bool :=
  let buffer := recv mime
  if buffer ≠ [] then
    (mimeInsert acc.1 mime buffer,
     acc.2 || isTextMime mime)
  else acc

/-- The drain worker's probe loop over `probeMimes`, starting from an
empty map and `has_text = false`. -/
def drainProbe (recv : String → Bytes) : MimeMap × Bool :=
  probeMimes.foldl (probeStep recv) ([], false)

/-- The event the drain worker sends after all probes (`wayland.rs`,
Selection arm): text preferred via the `text/plain;charset=utf-8` then
`text/plain` entries of `all_data`, else `Binary(all_data)` when
anything was collected, else nothing. -/
def drainDecision (all_data : MimeMap) (has_text : Bool) :
    Option ClipboardContent :=
  if all_data ≠ [] then
    if has_text then
      match mimeGet all_data ("text/plain;charset=utf-8") with
      | some text_data =>
        match from_utf8 text_data with
        | some text =>
          if text ≠ [] then some (.text text)
          else fallbackPlain all_data
        | none => fallbackPlain all_data
      | none => fallbackPlain all_data
    else some (.binary all_data)
  else none
where
  /-- The `text/plain` fallback and the final `Binary(all_data)`. -/
  fallbackPlain (all_data : MimeMap) : Option ClipboardContent :=
    match mimeGet all_data ("text/plain") with
    | some text_data =>
      match from_utf8 text_data with
      | some text =>
        if text ≠ [] then some (.text text)
        else some (.binary all_data)
      | none => some (.binary all_data)
    | none => some (.binary all_data)

/-- The whole drain worker for a new clipboard offer: probe, then decide,
then send a `WaylandToX11` event for the `Clipboard` kind (or nothing). -/
def drainWorker (recv : String → Bytes) : Option SyncEvent :=
  let (all_data, has_text) := drainProbe recv
  (drainDecision all_data has_text).map fun content =>
    .waylandToX11 content .clipboard

-- ===========================================================================
-- wayland.rs — WaylandState::set_clipboard_content as a protocol trace
-- ===========================================================================

/-- A Wayland protocol request issued by `set_clipboard_content`, with
data sources identified by allocation number. -/
inductive WOp
  | createSource (id : Nat)
  | offer (id : Nat) (mime : String)
  | setSelection (id : Nat)
  | setPrimarySelection (id : Nat)
  | destroy (id : Nat)
  deriving DecidableEq, Repr

/-- The part of `WaylandState` that `set_clipboard_content` touches:
snapshots, the per-kind current source, the presence of the device and
manager globals, and a fresh-id counter for created sources. -/
structure WState where
  clipboard_content : Option ClipboardContent
  primary_content : Option ClipboardContent
  pending_primary_content : Option ClipboardContent
  clipboard_source : Option Nat
  primary_source : Option Nat
  has_device : Bool
  has_manager : Bool
  next_id : Nat
  deriving DecidableEq, Repr

/-- The `offer` calls made on a fresh source for a content
(`wayland.rs`, the `match &content` inside both branches). -/
def offersFor (c : ClipboardContent) : List String :=
  match c with
  | .text _ =>
    ["text/plain;charset=utf-8", "text/plain", "UTF8_STRING",
     "TEXT", "STRING"]
  | .binary m => m.map Prod.fst
  | .empty => []

/-- Rust `WaylandState::set_clipboard_content`: the new state and the ordered
list of protocol requests issued.  Mirrors the source: return early when
no device; store the snapshot; when the manager is present, create a new
source, offer its MIMEs, set the (primary) selection, destroy the
previous source, and remember the new one. -/
def set_clipboard_content (st : WState) (content : ClipboardContent)
    (clipboard_type : ClipboardType) : WState × List WOp :=
  if !st.has_device then (st, [])
  else
    match clipboard_type with
    | .clipboard =>
      let st1 := { st with clipboard_content := some content }
      if st1.has_manager then
        let n := st1.next_id
        let ops := WOp.createSource n ::
          (offersFor content).map (WOp.offer n) ++ [WOp.setSelection n]
        let ops := match st1.clipboard_source with
          | some old => ops ++ [WOp.destroy old]
          | none => ops
        ({ st1 with clipboard_source := some n, next_id := n + 1 }, ops)
      else (st1, [])
    | .primary =>
      let st1 := { st with
        pending_primary_content := some content,
        primary_content := some content }
      if st1.has_manager then
        let n := st1.next_id
        let ops := WOp.createSource n ::
          (offersFor content).map (WOp.offer n) ++
            [WOp.setPrimarySelection n]
        let ops := match st1.primary_source with
          | some old => ops ++ [WOp.destroy old]
          | none => ops
        ({ st1 with primary_source := some n, next_id := n + 1 }, ops)
      else (st1, [])

/-- Replay a protocol trace over the set of live (created, not yet
destroyed) sources. -/
def liveAfter (live : List Nat) : List WOp → List Nat
  | [] => live
  | op :: ops =>
    match op with
    | .createSource id => liveAfter (id :: live) ops
    | .destroy id => liveAfter (live.erase id) ops
    | _ => liveAfter live ops

-- ===========================================================================
-- wayland.rs — Send arm of the data-control source dispatch
-- ===========================================================================

/-- The bytes the Send handler writes to the pipe for a requested MIME,
given the snapshot it selected for the source (`wayland.rs`, the `Send`
arm): text bytes for `Text`, the exact map entry for `Binary`, nothing
for `Empty` or a missing entry or snapshot. -/
def sendBytes (content : Option ClipboardContent) (mime_type : String) :
    Option Bytes :=
  match content with
  | some (.text t) => some t
  | some (.binary mime_map) => mimeGet mime_map mime_type
  | some .empty => none
  | none => none

-- ===========================================================================
-- x11.rs — X adapter
-- ===========================================================================

/-- The interned atoms of `X11State` (`x11.rs`); `NONE` is the literal
`0` and `PRIMARY` is the predefined atom `1`. -/
structure Atoms where
  clipboard : Nat
  primary : Nat
  targets : Nat
  multiple : Nat
  incr : Nat
  utf8_string : Nat
  text_atom : Nat
  string_atom : Nat
  text_plain_utf8 : Nat
  text_plain : Nat
  deriving DecidableEq, Repr

/-- A concrete atom table with the server-assigned values all distinct
and nonzero, as interning guarantees. -/
def atoms0 : Atoms :=
  { clipboard := 100, primary := 1, targets := 101, multiple := 102,
    incr := 103, utf8_string := 104, text_atom := 105, string_atom := 106,
    text_plain_utf8 := 107, text_plain := 108 }

/-- The reply of the `get_property` round-trip: declared type atom and
value bytes. -/
structure PropReply where
  type_ : Nat
  value : Bytes
  deriving DecidableEq, Repr

/-- The two per-kind snapshots of `X11State` (`clipboard_content`,
`primary_content`, both `Option<String>`). -/
structure XSnap where
  clipboard_content : Option Bytes
  primary_content : Option Bytes
  deriving DecidableEq, Repr

/-- Store a pulled string into the snapshot for a kind (`x11.rs`, the
`match clipboard_type` blocks). -/
def storeSnap (st : XSnap) (t : ClipboardType) (content : Bytes) : XSnap :=
  match t with
  | .clipboard => { st with clipboard_content := some content }
  | .primary => { st with primary_content := some content }

/-- The error the pure model can produce: `String::from_utf8` failing in
a handler (connection I/O is assumed to succeed, so the `map_err` arms
on connection calls are unreachable). -/
inductive XErr
  | utf8DecodeError
  deriving DecidableEq, Repr

/-- The kind an X selection atom denotes (`x11.rs`): `CLIPBOARD` maps to
`Clipboard`, anything else to `Primary`. -/
def kindOfSelection (a : Atoms) (selection : Nat) : ClipboardType :=
  if selection == a.clipboard then .clipboard else .primary

/-- Rust `X11State::handle_selection_notify`: given the event's `property`
and `selection` fields and the `get_property` reply, the new snapshots
and the `SyncEvent`s sent, or the propagated UTF-8 decode error. -/
def handle_selection_notify (a : Atoms) (st : XSnap)
    (eventProperty eventSelection : Nat) (prop : PropReply) :
    Except XErr (XSnap × List SyncEvent) :=
  if eventProperty == 0 then
    .ok (st, [])
  else if prop.type_ == 0 || prop.value == [] then
    .ok (st, [])
  else if prop.type_ == a.utf8_string || prop.type_ == a.text_plain then
    match from_utf8 prop.value with
    | none => .error .utf8DecodeError
    | some content =>
      let t := kindOfSelection a eventSelection
      .ok (storeSnap st t content, [.x11ToWayland (.text content) t])
  else if prop.type_ == a.string_atom then
    let content := latin1Decode prop.value
    let t := kindOfSelection a eventSelection
    .ok (storeSnap st t content, [.x11ToWayland (.text content) t])
  else
    .ok (st, [])

/-- Rust `X11State::handle_selection_clear`: clear the snapshot of the kind
named by the event's selection atom; nothing is emitted. -/
def handle_selection_clear (a : Atoms) (st : XSnap) (eventSelection : Nat) :
    XSnap :=
  match kindOfSelection a eventSelection with
  | .clipboard => { st with clipboard_content := none }
  | .primary => { st with primary_content := none }

/-- Rust `X11State::handle_xfixes_selection_notify`: the events the handler
itself sends (always none — every path reaches `Ok(())` without a send)
and the kind it pulls via `request_clipboard_content`, if any. -/
def handle_xfixes_selection_notify (a : Atoms) (window owner selection : Nat) :
    List SyncEvent × Option ClipboardType :=
  let clipboard_type := kindOfSelection a selection
  if owner == window then ([], none)
  else if owner != 0 then ([], some clipboard_type)
  else ([], none)

/-- A property write or reply notification issued by
`handle_selection_request`. -/
inductive XReplyOp
  | writeAtoms (requestor property : Nat) (atoms : List Nat)
  | writeEmpty (requestor property : Nat)
  | writeText (requestor property : Nat) (bytes : Bytes)
  | notifyReply (requestor selection target property : Nat)
  deriving DecidableEq, Repr

/-- Rust `atoms.chunks(2)` keeping only full pairs, as the MULTIPLE arm does. -/
def multiplePairs : List Nat → List (Nat × Nat)
  | t :: p :: rest => (t, p) :: multiplePairs rest
  | _ => []

/-- Rust `X11State::handle_selection_request`: the ordered property writes
and the final `SelectionNotify` reply.  `pairs` is the atom list read
from the requestor's property in the MULTIPLE arm. -/
def handle_selection_request (a : Atoms) (st : XSnap)
    (requestor eventSelection target property : Nat) (pairs : List Nat) :
    List XReplyOp :=
  if target == a.targets then
    [.writeAtoms requestor property
       [a.utf8_string, a.string_atom, a.text_atom, a.targets],
     .notifyReply requestor eventSelection target property]
  else if target == a.multiple then
    ((multiplePairs pairs).map fun pr => .writeEmpty requestor pr.2) ++
      [.notifyReply requestor eventSelection target property]
  else if target == a.utf8_string || target == a.string_atom
      || target == a.text_atom then
    let content :=
      if eventSelection == a.clipboard then st.clipboard_content
      else if eventSelection == a.primary then st.primary_content
      else none
    match content with
    | some text =>
      [.writeText requestor property text,
       .notifyReply requestor eventSelection target property]
    | none =>
      [.notifyReply requestor eventSelection target 0]
  else
    [.notifyReply requestor eventSelection target 0]

/-- Rust `X11State::set_clipboard_content`, restricted to its effect on the
snapshots (the property write and `set_selection_owner` are protocol
calls with no bearing on the claims below). -/
def x11_set_clipboard_content (st : XSnap) (content : Bytes)
    (clipboard_type : ClipboardType) : XSnap :=
  storeSnap st clipboard_type content

/-- A polled X event, carrying the data the handlers read from the
server (the `get_property` reply for a `SelectionNotify`, the atom-pair
list for a MULTIPLE `SelectionRequest`). -/
inductive XEvent
  | selectionRequest (requestor selection target property : Nat)
      (pairs : List Nat)
  | selectionNotify (property selection : Nat) (prop : PropReply)
  | selectionClear (selection : Nat)
  | propertyNotify (atom : Nat)
  | xfixesNotify (owner selection : Nat)
  | otherEvent
  deriving DecidableEq, Repr

/-- One iteration of `X11State::run_event_loop`: service a pending
set-clipboard request (its result is discarded with `let _ =`), then
dispatch the polled event.  Every dispatched handler is invoked with
`?`, so a handler error is returned and the loop terminates. -/
def run_event_loop_iter (a : Atoms) (window : Nat) (st : XSnap)
    (setReq : Option (Bytes × ClipboardType)) (polled : Option XEvent) :
    Except XErr (XSnap × List XReplyOp × List SyncEvent × Option ClipboardType) :=
  let st := match setReq with
    | some (content, t) => x11_set_clipboard_content st content t
    | none => st
  match polled with
  | some (.selectionRequest requestor selection target property pairs) =>
    .ok (st, handle_selection_request a st requestor selection target
      property pairs, [], none)
  | some (.selectionNotify property selection prop) =>
    match handle_selection_notify a st property selection prop with
    | .error e => .error e
    | .ok (st', ems) => .ok (st', [], ems, none)
  | some (.selectionClear selection) =>
    .ok (handle_selection_clear a st selection, [], [], none)
  | some (.propertyNotify _) => .ok (st, [], [], none)
  | some (.xfixesNotify owner selection) =>
    let (ems, pull) := handle_xfixes_selection_notify a window owner selection
    .ok (st, [], ems, pull)
  | some .otherEvent => .ok (st, [], [], none)
  | none => .ok (st, [], [], none)

-- ===========================================================================
-- Derived notions used by the theorem statements
-- ===========================================================================

/-- Write a value into the ledger cell of a kind. -/
def setLedger (st : SyncState) (t : ClipboardType) (v : Option Bytes) :
    SyncState :=
  match t with
  | .clipboard => { st with x11_content := v }
  | .primary => { st with primary_content := v }

/-- The set-clipboard command delivered to a given target side. -/
def cmdTo (target : Side) (text : Bytes) (t : ClipboardType) : SetCmd :=
  match target with
  | .wayland => .setWayland text t
  | .x11 => .setX11 text t

/-- The entries the drain worker's probe loop collects: one entry per
probed MIME that delivered bytes, in probe order, valued at those bytes. -/
def collected (recv : String → Bytes) : MimeMap :=
  (probeMimes.filter fun m => recv m ≠ []).map fun m => (m, recv m)

/-- The final value of the drain worker's `has_text` flag: some probed
MIME delivered bytes and passes the inline text-MIME test. -/
def hasTextFlag (recv : String → Bytes) : Bool :=
  probeMimes.any fun m => decide (recv m ≠ []) && isTextMime m

/-- The current source of a kind in the Wayland adapter state. -/
def sourceOf (st : WState) : ClipboardType → Option Nat
  | .clipboard => st.clipboard_source
  | .primary => st.primary_source

/-- The selection-claiming request for a kind. -/
def setOp : ClipboardType → Nat → WOp
  | .clipboard => WOp.setSelection
  | .primary => WOp.setPrimarySelection

-- ===========================================================================
-- Helper lemmas
-- ===========================================================================

/-- Inserting a key absent from the map appends the new entry. -/
theorem mimeInsert_fresh (m : MimeMap) (k : String) (v : Bytes)
    (h : ∀ p ∈ m, p.1 ≠ k) : mimeInsert m k v = m ++ [(k, v)] := by
  induction m with
  | nil => rfl
  | cons p rest ih =>
    obtain ⟨k', v'⟩ := p
    have hk : k' ≠ k := h (k', v') (List.mem_cons_self _ _)
    simp only [mimeInsert, if_neg hk, List.cons_append, List.cons.injEq,
      true_and]
    exact ih fun q hq => h q (List.mem_cons_of_mem _ hq)

/-- A successful lookup returns an entry of the map. -/
theorem mimeGet_eq_some_mem {m : MimeMap} {k : String} {v : Bytes}
    (h : mimeGet m k = some v) : (k, v) ∈ m := by
  induction m with
  | nil => simp [mimeGet] at h
  | cons p rest ih =>
    obtain ⟨k', v'⟩ := p
    rw [mimeGet] at h
    split at h
    · next heq =>
      injection h with hv
      subst hv
      subst heq
      exact List.mem_cons_self _ _
    · exact List.mem_cons_of_mem _ (ih h)

/-- The probe loop, over any suffix of distinct MIMEs whose keys are
fresh for the accumulator, appends the collected entries and ors in the
text flags. -/
theorem probe_fold_eq (recv : String → Bytes) :
    ∀ (l : List String) (acc : MimeMap) (flag : Bool),
      l.Nodup → (∀ m ∈ l, ∀ p ∈ acc, p.1 ≠ m) →
      l.foldl (probeStep recv) (acc, flag) =
        (acc ++ (l.filter fun m => recv m ≠ []).map fun m => (m, recv m),
         flag || l.any fun m => decide (recv m ≠ []) && isTextMime m) := by
  intro l
  induction l with
  | nil => intro acc flag _ _; simp
  | cons m rest ih =>
    intro acc flag hnd hfresh
    have hndr : rest.Nodup := (List.nodup_cons.mp hnd).2
    by_cases hrecv : recv m = []
    · have hstep : probeStep recv (acc, flag) m = (acc, flag) := by
        simp [probeStep, hrecv]
      rw [List.foldl_cons, hstep,
        ih acc flag hndr fun x hx => hfresh x (List.mem_cons_of_mem _ hx)]
      simp [hrecv]
    · have hstep : probeStep recv (acc, flag) m =
          (acc ++ [(m, recv m)], flag || isTextMime m) := by
        simp only [probeStep, if_pos hrecv]
        rw [mimeInsert_fresh acc m (recv m)
          (hfresh m (List.mem_cons_self _ _))]
      have hfresh2 : ∀ x ∈ rest, ∀ p ∈ acc ++ [(m, recv m)], p.1 ≠ x := by
        intro x hx p hp
        rcases List.mem_append.mp hp with hpa | hpm
        · exact hfresh x (List.mem_cons_of_mem _ hx) p hpa
        · have hpm' : p = (m, recv m) := by simpa using hpm
          subst hpm'
          intro hcontra
          have hmx : m = x := hcontra
          exact (List.nodup_cons.mp hnd).1 (by rw [hmx]; exact hx)
      rw [List.foldl_cons, hstep, ih _ _ hndr hfresh2]
      simp [hrecv, List.append_assoc, Bool.or_assoc]

/-- The probe loop over the fixed probe list computes `collected` and
`hasTextFlag`. -/
theorem drainProbe_eq (recv : String → Bytes) :
    drainProbe recv = (collected recv, hasTextFlag recv) := by
  have h := probe_fold_eq recv probeMimes [] false (by decide)
    (fun m _ p hp => absurd hp (List.not_mem_nil p))
  simpa [drainProbe, collected, hasTextFlag] using h

/-- The `text/plain` fallback of the drain decision yields either the
`text/plain` text or `Binary` of the whole collected map. -/
theorem fallbackPlain_cases (all_data : MimeMap) :
    (∃ b, mimeGet all_data ("text/plain") = some b ∧ validUtf8 b = true ∧
      b ≠ [] ∧ drainDecision.fallbackPlain all_data = some (.text b)) ∨
    ((∀ b, mimeGet all_data ("text/plain") = some b →
        ¬(validUtf8 b = true ∧ b ≠ [])) ∧
      drainDecision.fallbackPlain all_data = some (.binary all_data)) := by
  unfold drainDecision.fallbackPlain
  cases hget : mimeGet all_data ("text/plain") with
  | none =>
    refine .inr ⟨?_, rfl⟩
    intro b hb
    exact Option.noConfusion hb
  | some b =>
    cases hval : validUtf8 b with
    | false =>
      refine .inr ⟨?_, by simp [from_utf8, hval]⟩
      intro b' hb'
      injection hb' with hbb
      subst hbb
      simp [hval]
    | true =>
      by_cases hne : b = []
      · subst hne
        refine .inr ⟨?_, by simp [from_utf8, hval]⟩
        intro b' hb'
        injection hb' with hbb
        subst hbb
        simp
      · exact .inl ⟨b, rfl, hval, hne, by simp [from_utf8, hval, hne]⟩

/-- A `Binary` result of the drain decision is the whole collected map,
and the map is non-empty. -/
theorem drainDecision_binary {all_data : MimeMap} {has_text : Bool}
    {m : MimeMap}
    (hd : drainDecision all_data has_text = some (.binary m)) :
    m = all_data ∧ all_data ≠ [] := by
  by_cases hnil : all_data = []
  · unfold drainDecision at hd
    rw [if_neg (by simp [hnil])] at hd
    exact Option.noConfusion hd
  · refine ⟨?_, hnil⟩
    unfold drainDecision at hd
    rw [if_pos hnil] at hd
    have hfb : drainDecision.fallbackPlain all_data =
        some (ClipboardContent.binary m) → m = all_data := by
      intro h'
      rcases fallbackPlain_cases all_data with ⟨b, _, _, _, heq⟩ | ⟨_, heq⟩
      · rw [heq] at h'
        injection h' with h''
        exact ClipboardContent.noConfusion h''
      · rw [heq] at h'
        injection h' with h''
        injection h'' with h3
        exact h3.symm
    cases has_text with
    | false =>
      rw [if_neg (by simp)] at hd
      injection hd with h''
      injection h'' with h3
      exact h3.symm
    | true =>
      rw [if_pos rfl] at hd
      cases hget : mimeGet all_data ("text/plain;charset=utf-8") with
      | none => rw [hget] at hd; exact hfb hd
      | some b =>
        rw [hget] at hd
        dsimp only at hd
        cases hdec : from_utf8 b with
        | none => rw [hdec] at hd; exact hfb hd
        | some text =>
          rw [hdec] at hd
          dsimp only at hd
          by_cases hne : text = []
          · rw [if_neg (by simp [hne])] at hd
            exact hfb hd
          · rw [if_pos hne] at hd
            injection hd with h''
            exact ClipboardContent.noConfusion h''

/-- When the collected map holds the `text/plain` key with usable text,
the fallback emits exactly that text. -/
theorem fallbackPlain_text {all_data : MimeMap} {b : Bytes}
    (hget : mimeGet all_data ("text/plain") = some b)
    (hval : validUtf8 b = true) (hne : b ≠ []) :
    drainDecision.fallbackPlain all_data = some (.text b) := by
  unfold drainDecision.fallbackPlain
  rw [hget]
  dsimp only
  rw [show from_utf8 b = some b from by rw [from_utf8, if_pos hval]]
  dsimp only
  rw [if_pos hne]

/-- When the `text/plain` entry is unusable, the fallback emits
`Binary` of the whole collected map. -/
theorem fallbackPlain_to_binary {all_data : MimeMap}
    (hun : ∀ b', mimeGet all_data ("text/plain") = some b' →
      ¬(validUtf8 b' = true ∧ b' ≠ [])) :
    drainDecision.fallbackPlain all_data = some (.binary all_data) := by
  rcases fallbackPlain_cases all_data with ⟨b, hg, hv, hn, _⟩ | ⟨_, heq⟩
  · exact absurd ⟨hv, hn⟩ (hun b hg)
  · exact heq

/-- When the `text/plain;charset=utf-8` entry is unusable, the drain
decision with the text flag set reduces to the `text/plain` fallback. -/
theorem drainDecision_to_fallback {all_data : MimeMap}
    (hnil : all_data ≠ [])
    (hun : ∀ b', mimeGet all_data ("text/plain;charset=utf-8") = some b' →
      ¬(validUtf8 b' = true ∧ b' ≠ [])) :
    drainDecision all_data true = drainDecision.fallbackPlain all_data := by
  unfold drainDecision
  rw [if_pos hnil, if_pos rfl]
  cases hget : mimeGet all_data ("text/plain;charset=utf-8") with
  | none => rfl
  | some b =>
    have hb := hun b hget
    dsimp only
    cases hdec : from_utf8 b with
    | none => rfl
    | some text =>
      have hvb : validUtf8 b = true := by
        by_contra hc
        rw [from_utf8, if_neg hc] at hdec
        exact Option.noConfusion hdec
      have htb : text = b := by
        rw [from_utf8, if_pos hvb] at hdec
        injection hdec with h'
        exact h'.symm
      have hbe : b = [] := by
        by_contra hbne
        exact hb ⟨hvb, hbne⟩
      dsimp only
      rw [if_neg (by simp [htb, hbe])]

/-- When the collected map holds a usable `text/plain;charset=utf-8`
entry, the drain decision with the text flag set emits that text. -/
theorem drainDecision_text_charset {all_data : MimeMap} {b : Bytes}
    (hget : mimeGet all_data ("text/plain;charset=utf-8") = some b)
    (hval : validUtf8 b = true) (hne : b ≠ []) :
    drainDecision all_data true = some (.text b) := by
  have hnil : all_data ≠ [] :=
    List.ne_nil_of_mem (mimeGet_eq_some_mem hget)
  unfold drainDecision
  rw [if_pos hnil, if_pos rfl, hget]
  dsimp only
  rw [show from_utf8 b = some b from by rw [from_utf8, if_pos hval]]
  dsimp only
  rw [if_pos hne]

/-- A key successfully looked up in the collected map was probed,
delivered bytes, and delivered exactly those bytes. -/
theorem collected_get_mem {recv : String → Bytes} {key : String} {b : Bytes}
    (h : mimeGet (collected recv) key = some b) :
    key ∈ probeMimes ∧ recv key ≠ [] ∧ b = recv key := by
  have hmem := mimeGet_eq_some_mem h
  unfold collected at hmem
  rcases List.mem_map.mp hmem with ⟨m, hm, heq⟩
  have h1 : m = key := congrArg Prod.fst heq
  have h2 : recv m = b := congrArg Prod.snd heq
  subst h1
  rcases List.mem_filter.mp hm with ⟨hmm, hne⟩
  exact ⟨hmm, by simpa using hne, h2.symm⟩

/-- A collected entry under a text MIME key forces the text flag. -/
theorem hasTextFlag_of_collected_get {recv : String → Bytes} {key : String}
    {b : Bytes} (h : mimeGet (collected recv) key = some b)
    (htext : isTextMime key = true) : hasTextFlag recv = true := by
  obtain ⟨hmem, hne, _⟩ := collected_get_mem h
  unfold hasTextFlag
  rw [List.any_eq_true]
  exact ⟨key, hmem, by simp [hne, htext]⟩

/-- A source never named by a destroy request stays live. -/
theorem mem_liveAfter {n : Nat} : ∀ (ops : List WOp) (live : List Nat),
    n ∈ live → WOp.destroy n ∉ ops → n ∈ liveAfter live ops := by
  intro ops
  induction ops with
  | nil => intro live h _; simpa [liveAfter] using h
  | cons op rest ih =>
    intro live hmem hnd
    have hnd' : WOp.destroy n ∉ rest := fun h => hnd (List.mem_cons_of_mem _ h)
    cases op with
    | createSource id =>
      simp only [liveAfter]
      exact ih _ (List.mem_cons_of_mem _ hmem) hnd'
    | destroy id =>
      simp only [liveAfter]
      have hne : n ≠ id := by
        intro h
        exact hnd (by rw [h]; exact List.mem_cons_self _ _)
      exact ih _ ((List.mem_erase_of_ne hne).mpr hmem) hnd'
    | offer id mime =>
      simp only [liveAfter]
      exact ih _ hmem hnd'
    | setSelection id =>
      simp only [liveAfter]
      exact ih _ hmem hnd'
    | setPrimarySelection id =>
      simp only [liveAfter]
      exact ih _ hmem hnd'

/-- During a create-new / operate / destroy-old replacement trace there
is a live source at every intermediate point. -/
theorem liveAfter_replacement {n old : Nat} {mid : List WOp}
    (hne : old ≠ n) (hmid : WOp.destroy n ∉ mid) :
    ∀ k, liveAfter [old]
      ((WOp.createSource n :: (mid ++ [WOp.destroy old])).take k) ≠ [] := by
  intro k
  cases k with
  | zero => simp [liveAfter]
  | succ k =>
    rw [List.take_succ_cons]
    simp only [liveAfter]
    apply List.ne_nil_of_mem (a := n)
    apply mem_liveAfter _ _ (List.mem_cons_self _ _)
    intro hmem
    have hsub := List.take_subset k _ hmem
    rcases List.mem_append.mp hsub with h1 | h2
    · exact hmid h1
    · have hone : WOp.destroy n = WOp.destroy old := by simpa using h2
      injection hone with h3
      exact hne h3.symm

/-- The sync loop drops an observation whose content already matches the
kind's ledger cell: the state is unchanged and no command is sent. -/
theorem syncStep_drop_of_matches :
    ∀ (st : SyncState) (side : Side) (content : ClipboardContent)
      (t : ClipboardType),
      ledgerMatches (ledgerFor st t) content = true →
      syncStep st (mkSyncEvent side content t) = some (st, []) := by
  intro st side content t h
  obtain ⟨x, p⟩ := st
  cases side <;> cases content <;> cases t <;>
    simp_all [syncStep, mkSyncEvent, ledgerMatches, ledgerFor]

/-- After the sync loop processes an observation, the ledger cell of its
kind matches the observed content. -/
theorem syncStep_post_matches :
    ∀ (x p : Option Bytes) (side : Side) (content : ClipboardContent)
      (t : ClipboardType) (st' : SyncState) (cmds : List SetCmd),
      syncStep ⟨x, p⟩ (mkSyncEvent side content t) = some (st', cmds) →
      ledgerMatches (ledgerFor st' t) content = true := by
  intro x p side content t st' cmds h
  cases side <;> cases content <;> cases t <;>
    simp only [mkSyncEvent, syncStep] at h <;>
    first
      | exact Option.noConfusion h
      | (split at h <;>
          (injection h with h2; injection h2 with hA hB; subst hA;
           simp_all [ledgerMatches, ledgerFor]))
      | (injection h with h2; injection h2 with hA hB; subst hA;
         simp_all [ledgerMatches, ledgerFor])

-- ===========================================================================
-- Claims
-- ===========================================================================

/-- Claim C1: echo suppression.  If the sync loop's ledger cell for a
kind already structurally equals an observed content, the loop emits no
set-clipboard command to either side (the observation is dropped and the
state is unchanged); and after the loop processes any observation, a
re-observation of the same content for the same kind — from either side,
in particular from the side the content was just forwarded to — produces
zero further commands. -/
theorem echo_suppression :
    ∀ (st : SyncState) (side : Side) (content : ClipboardContent)
      (t : ClipboardType),
      (ledgerMatches (ledgerFor st t) content = true →
        syncStep st (mkSyncEvent side content t) = some (st, [])) ∧
      (∀ (st' : SyncState) (cmds : List SetCmd) (side2 : Side),
        syncStep st (mkSyncEvent side content t) = some (st', cmds) →
        syncStep st' (mkSyncEvent side2 content t) = some (st', [])) := by
  intro st side content t
  refine ⟨syncStep_drop_of_matches st side content t, ?_⟩
  intro st' cmds side2 h
  obtain ⟨x, p⟩ := st
  exact syncStep_drop_of_matches st' side2 content t
    (syncStep_post_matches x p side content t st' cmds h)

/-- Witness for C1: with the ledger already holding `"hi"` for the
clipboard kind, a Wayland observation of `"hi"` is dropped. -/
theorem echo_suppression_witness :
    syncStep ⟨some [104, 105], none⟩
      (mkSyncEvent .wayland (.text [104, 105]) .clipboard) =
      some (⟨some [104, 105], none⟩, []) :=
  (echo_suppression ⟨some [104, 105], none⟩ .wayland (.text [104, 105])
    .clipboard).1 (by decide)

/-- Counterexample for C2: a Wayland `Empty` observation for the
clipboard kind, with the ledger holding `"hello"`, clears the ledger and
sends zero commands — not the one `Assert(Clipboard, Empty)` to the X
side that the claim requires. -/
theorem sync_empty_no_assert_cex :
    syncStep ⟨some [104, 101, 108, 108, 111], none⟩
      (SyncEvent.waylandToX11 .empty .clipboard) =
      some (⟨none, none⟩, []) := by decide

/-- Claim C2 (amended): a `Text` observation differing from the ledger
cell sets the cell and sends exactly one set-clipboard command, carrying
the text and kind, on the opposite side's channel and none back to the
observing side; an `Empty` observation clears the cell and sends no
command to either side; a `Binary` observation reaches no match arm of
the sync loop. -/
theorem sync_forward_text_only :
    ∀ (st : SyncState) (side : Side) (t : ClipboardType) (s : Bytes)
      (m : MimeMap),
      (ledgerFor st t ≠ some s →
        syncStep st (mkSyncEvent side (.text s) t) =
          some (setLedger st t (some s), [cmdTo (opposite side) s t])) ∧
      (syncStep st (mkSyncEvent side .empty t) =
        some (setLedger st t none, [])) ∧
      (syncStep st (mkSyncEvent side (.binary m) t) = none) := by
  intro st side t s m
  obtain ⟨x, p⟩ := st
  refine ⟨fun h => ?_, ?_, ?_⟩ <;> cases side <;> cases t <;>
    simp_all [syncStep, mkSyncEvent, setLedger, cmdTo, opposite, ledgerFor]

/-- Witness for C2 (amended): a fresh Wayland `"h"` observation is
forwarded as a single command to the X side. -/
theorem sync_forward_text_only_witness :
    syncStep ⟨none, none⟩ (mkSyncEvent .wayland (.text [104]) .clipboard) =
      some (setLedger ⟨none, none⟩ .clipboard (some [104]),
        [cmdTo (opposite .wayland) [104] .clipboard]) :=
  (sync_forward_text_only ⟨none, none⟩ .wayland .clipboard [104] []).1
    (by decide)

/-- Claim C3: at the failing input — a Wayland observation carrying
`Binary({image/png: 89 50 4e 47})` — the sync loop's `match content`
has no arm (the match is not exhaustive), so the observation has no
defined behavior and nothing is recorded; the W-Adapter's Send handler
itself would serve such a map byte-exact from a snapshot, which is the
half of the claim the code does implement. -/
theorem binary_observation_unhandled :
    syncStep ⟨none, none⟩ (SyncEvent.waylandToX11
      (ClipboardContent.binary [(("image/png" : String), [137, 80, 78, 71])])
      ClipboardType.clipboard) = none ∧
    sendBytes (some (ClipboardContent.binary
      [(("image/png" : String), [137, 80, 78, 71])])) ("image/png") =
      some [137, 80, 78, 71] :=
  ⟨rfl, rfl⟩

/-- Counterexample for C4: a `SelectionNotify` whose property reply
declares type `UTF8_STRING` with the invalid UTF-8 byte `0xFF` makes
`handle_selection_notify` return an error, and the event-loop iteration
propagates it — the loop terminates rather than continuing. -/
theorem decode_failure_cex :
    handle_selection_notify atoms0 ⟨none, none⟩ 50 100 ⟨104, [255]⟩ =
      Except.error XErr.utf8DecodeError ∧
    run_event_loop_iter atoms0 5 ⟨none, none⟩ none
      (some (XEvent.selectionNotify 50 100 ⟨104, [255]⟩)) =
      Except.error XErr.utf8DecodeError :=
  ⟨rfl, rfl⟩

/-- Claim C4 (amended): for every pulled property whose declared type is
`UTF8_STRING` or `text/plain` but whose bytes are not valid UTF-8, the
X-Adapter emits no `Observed` event, and the decode failure is returned
as an error which `run_event_loop` propagates, terminating the adapter
(the loop does not continue). -/
theorem decode_failure_terminates_loop :
    ∀ (a : Atoms) (st : XSnap) (evProp evSel window : Nat)
      (prop : PropReply) (setReq : Option (Bytes × ClipboardType)),
      (prop.type_ = a.utf8_string ∨ prop.type_ = a.text_plain) →
      validUtf8 prop.value = false →
      evProp ≠ 0 → prop.type_ ≠ 0 → prop.value ≠ [] →
      handle_selection_notify a st evProp evSel prop =
        Except.error XErr.utf8DecodeError ∧
      run_event_loop_iter a window st setReq
        (some (XEvent.selectionNotify evProp evSel prop)) =
        Except.error XErr.utf8DecodeError := by
  intro a st evProp evSel window prop setReq htype hval hp ht hv
  have hgen : ∀ s : XSnap, handle_selection_notify a s evProp evSel prop =
      Except.error XErr.utf8DecodeError := by
    intro s
    unfold handle_selection_notify
    rw [if_neg (by simpa using hp)]
    rw [if_neg (by simp [ht, hv])]
    rw [if_pos (by rcases htype with h | h <;> simp [h])]
    simp [from_utf8, hval]
  refine ⟨hgen st, ?_⟩
  cases setReq with
  | none =>
    unfold run_event_loop_iter
    dsimp only
    rw [hgen]
  | some pr =>
    unfold run_event_loop_iter
    dsimp only
    rw [hgen]

/-- Witness for C4 (amended): declared type `text/plain` with the lone
continuation-less lead byte `0xC8`. -/
theorem decode_failure_terminates_loop_witness :
    handle_selection_notify atoms0 ⟨none, none⟩ 77 1 ⟨108, [200]⟩ =
      Except.error XErr.utf8DecodeError ∧
    run_event_loop_iter atoms0 9 ⟨none, none⟩ none
      (some (XEvent.selectionNotify 77 1 ⟨108, [200]⟩)) =
      Except.error XErr.utf8DecodeError :=
  decode_failure_terminates_loop atoms0 ⟨none, none⟩ 77 1 9 ⟨108, [200]⟩ none
    (Or.inr rfl) (by decide) (by decide) (by decide) (by decide)

/-- Counterexample for C5: an XFixes notify with `owner = 0` (selection
has no owner) produces no emission at all — in particular not the
`Observed(kind, Empty)` the claim requires — and initiates no pull. -/
theorem xfixes_no_owner_cex :
    handle_xfixes_selection_notify atoms0 5 0 100 = ([], none) ∧
    (handle_xfixes_selection_notify atoms0 5 0 100).1 ≠
      [SyncEvent.x11ToWayland ClipboardContent.empty ClipboardType.clipboard] := by
  exact ⟨rfl, by decide⟩

/-- Claim C5 (amended): for every XFixes selection-notify event, if the
owner is the adapter's own window nothing is emitted and no pull starts;
if the owner is `0` the event is ignored entirely (nothing is emitted —
no `Observed(kind, Empty)` — and no pull starts); otherwise a pull of
the kind named by the selection atom is initiated. -/
theorem xfixes_owner_cases :
    ∀ (a : Atoms) (window owner selection : Nat),
      (owner = window →
        handle_xfixes_selection_notify a window owner selection = ([], none)) ∧
      (owner ≠ window → owner ≠ 0 →
        handle_xfixes_selection_notify a window owner selection =
          ([], some (kindOfSelection a selection))) ∧
      (owner ≠ window → owner = 0 →
        handle_xfixes_selection_notify a window owner selection = ([], none)) := by
  intro a window owner selection
  refine ⟨fun h => by simp [handle_xfixes_selection_notify, h],
          fun h1 h2 => by simp [handle_xfixes_selection_notify, h1, h2],
          fun h1 h2 => by simp [handle_xfixes_selection_notify, h1, h2]⟩

/-- Witness for C5 (amended): a foreign owner `9` triggers a pull of the
primary kind. -/
theorem xfixes_owner_cases_witness :
    handle_xfixes_selection_notify atoms0 5 9 1 =
      ([], some (kindOfSelection atoms0 1)) :=
  (xfixes_owner_cases atoms0 5 9 1).2.1 (by decide) (by decide)

/-- Counterexample for C6: an offer delivering `"hi"` under the text
MIME `UTF8_STRING` only — a text MIME with a non-empty UTF-8-decodable
value — is emitted as `Binary`, not as `Text` as the claim requires,
because the decision only consults the `text/plain;charset=utf-8` and
`text/plain` keys. -/
theorem drain_utf8string_only_cex :
    drainWorker (fun m => if m == "UTF8_STRING" then [104, 105] else []) =
      some (SyncEvent.waylandToX11
        (ClipboardContent.binary [(("UTF8_STRING" : String), [104, 105])])
        ClipboardType.clipboard) ∧
    isTextMime ("UTF8_STRING") = true ∧ validUtf8 [104, 105] = true := by
  refine ⟨by decide, by decide, by decide⟩

/-- Claim C6 (amended): the probe loop collects exactly the probed MIMEs
that delivered bytes and flags whether any of them passes the text-MIME
test; after the probes, the worker emits `Text(t)` only from the
`text/plain;charset=utf-8` entry (preferred) or the `text/plain` entry,
when that entry decodes as non-empty UTF-8; otherwise it emits
`Binary` of all collected entries when anything was collected; and it
emits nothing when no probe delivered bytes. -/
theorem drain_worker_decision :
    ∀ recv : String → Bytes,
      drainProbe recv = (collected recv, hasTextFlag recv) ∧
      (collected recv = [] → drainWorker recv = none) ∧
      (∀ b, mimeGet (collected recv) ("text/plain;charset=utf-8") = some b →
        validUtf8 b = true → b ≠ [] →
        drainWorker recv = some (.waylandToX11 (.text b) .clipboard)) ∧
      (∀ b, (∀ b', mimeGet (collected recv) ("text/plain;charset=utf-8") =
          some b' → ¬(validUtf8 b' = true ∧ b' ≠ [])) →
        mimeGet (collected recv) ("text/plain") = some b →
        validUtf8 b = true → b ≠ [] →
        drainWorker recv = some (.waylandToX11 (.text b) .clipboard)) ∧
      (collected recv ≠ [] →
        (∀ b', mimeGet (collected recv) ("text/plain;charset=utf-8") =
          some b' → ¬(validUtf8 b' = true ∧ b' ≠ [])) →
        (∀ b', mimeGet (collected recv) ("text/plain") = some b' →
          ¬(validUtf8 b' = true ∧ b' ≠ [])) →
        drainWorker recv =
          some (.waylandToX11 (.binary (collected recv)) .clipboard)) := by
  intro recv
  have hw : drainWorker recv = (drainDecision (collected recv)
      (hasTextFlag recv)).map fun content =>
        SyncEvent.waylandToX11 content .clipboard := by
    unfold drainWorker
    rw [drainProbe_eq recv]
  refine ⟨drainProbe_eq recv, ?_, ?_, ?_, ?_⟩
  · intro hnil
    rw [hw, hnil]
    unfold drainDecision
    rw [if_neg (by simp)]
    rfl
  · intro b hget hval hne
    have hflag : hasTextFlag recv = true :=
      hasTextFlag_of_collected_get hget (by decide)
    rw [hw, hflag, drainDecision_text_charset hget hval hne]
    rfl
  · intro b hun hget hval hne
    have hflag : hasTextFlag recv = true :=
      hasTextFlag_of_collected_get hget (by decide)
    have hnil : collected recv ≠ [] :=
      List.ne_nil_of_mem (mimeGet_eq_some_mem hget)
    rw [hw, hflag, drainDecision_to_fallback hnil hun,
      fallbackPlain_text hget hval hne]
    rfl
  · intro hnil hun1 hun2
    rw [hw]
    cases hflag : hasTextFlag recv with
    | false =>
      unfold drainDecision
      rw [if_pos hnil, if_neg (by simp)]
      rfl
    | true =>
      rw [drainDecision_to_fallback hnil hun1, fallbackPlain_to_binary hun2]
      rfl

/-- Witness for C6 (amended): an offer delivering `"h"` under
`text/plain;charset=utf-8` is emitted as `Text("h")`. -/
theorem drain_worker_decision_witness :
    drainWorker (fun m => if m == "text/plain;charset=utf-8" then [104]
        else []) =
      some (SyncEvent.waylandToX11 (ClipboardContent.text [104])
        ClipboardType.clipboard) :=
  (drain_worker_decision _).2.2.1 [104] (by rfl) (by rfl) (by decide)

/-- Claim C7: every Wayland `Assert` with both globals present replaces
the kind's data source new-before-destroy: the issued request trace is
create-new, offer each MIME, claim the selection with the new source,
and only then destroy the previous source; the new source is recorded;
and at every prefix of the trace the set of live sources, seeded with
the previous source, is non-empty — no transient loss of ownership. -/
theorem assert_new_before_destroy :
    ∀ (st : WState) (content : ClipboardContent) (t : ClipboardType)
      (old : Nat),
      st.has_device = true → st.has_manager = true →
      sourceOf st t = some old → old ≠ st.next_id →
      (set_clipboard_content st content t).2 =
        (WOp.createSource st.next_id ::
          (offersFor content).map (WOp.offer st.next_id)) ++
          [setOp t st.next_id, WOp.destroy old] ∧
      sourceOf (set_clipboard_content st content t).1 t =
        some st.next_id ∧
      ∀ k, liveAfter [old]
        (((set_clipboard_content st content t).2).take k) ≠ [] := by
  intro st content t old hdev hman hsrc hne
  have hmid : WOp.destroy st.next_id ∉
      ((offersFor content).map (WOp.offer st.next_id) ++
        [setOp t st.next_id]) := by
    intro hmem
    rcases List.mem_append.mp hmem with hA | hB
    · rcases List.mem_map.mp hA with ⟨y, _, hy⟩
      exact WOp.noConfusion hy
    · have hone : WOp.destroy st.next_id = setOp t st.next_id := by
        simpa using hB
      cases t <;> exact WOp.noConfusion hone
  cases t with
  | clipboard =>
    simp only [sourceOf] at hsrc
    have h2 : (set_clipboard_content st content .clipboard).2 =
        WOp.createSource st.next_id ::
          (((offersFor content).map (WOp.offer st.next_id) ++
            [WOp.setSelection st.next_id]) ++ [WOp.destroy old]) := by
      simp [set_clipboard_content, hdev, hman, hsrc]
    have h1 : (set_clipboard_content st content .clipboard).1.clipboard_source
        = some st.next_id := by
      simp [set_clipboard_content, hdev, hman, hsrc]
    refine ⟨?_, ?_, ?_⟩
    · rw [h2]; simp [setOp]
    · simp only [sourceOf]
      exact h1
    · intro k
      rw [h2]
      exact liveAfter_replacement hne (by simp only [setOp] at hmid; exact hmid) k
  | primary =>
    simp only [sourceOf] at hsrc
    have h2 : (set_clipboard_content st content .primary).2 =
        WOp.createSource st.next_id ::
          (((offersFor content).map (WOp.offer st.next_id) ++
            [WOp.setPrimarySelection st.next_id]) ++ [WOp.destroy old]) := by
      simp [set_clipboard_content, hdev, hman, hsrc]
    have h1 : (set_clipboard_content st content .primary).1.primary_source
        = some st.next_id := by
      simp [set_clipboard_content, hdev, hman, hsrc]
    refine ⟨?_, ?_, ?_⟩
    · rw [h2]; simp [setOp]
    · simp only [sourceOf]
      exact h1
    · intro k
      rw [h2]
      exact liveAfter_replacement hne (by simp only [setOp] at hmid; exact hmid) k

/-- Witness for C7: replacing source `3` for the clipboard kind with a
fresh source `7` for a text assert. -/
theorem assert_new_before_destroy_witness :
    (set_clipboard_content ⟨none, none, none, some 3, none, true, true, 7⟩
      (.text [104]) .clipboard).2 =
      (WOp.createSource 7 ::
        (offersFor (.text [104])).map (WOp.offer 7)) ++
        [setOp .clipboard 7, WOp.destroy 3] :=
  (assert_new_before_destroy ⟨none, none, none, some 3, none, true, true, 7⟩
    (.text [104]) .clipboard 3 rfl rfl rfl (by decide)).1

/-- Counterexample for C8: the inline text-MIME test returns `false` on
`"TEXT"`, while the claim's characterization makes it `true`. -/
theorem text_mime_TEXT_cex :
    isTextMime ("TEXT") = false ∧
    ¬ (isTextMime ("TEXT") = true ↔
       (("text/").data.isPrefixOf ("TEXT" : String).data = true ∨
        ("TEXT" : String) = "UTF8_STRING" ∨
        ("TEXT" : String) = "STRING" ∨ ("TEXT" : String) = "TEXT")) := by
  refine ⟨by decide, ?_⟩
  intro h
  have htrue := h.mpr (Or.inr (Or.inr (Or.inr rfl)))
  have hfalse : isTextMime ("TEXT") = false := by decide
  rw [hfalse] at htrue
  exact Bool.noConfusion htrue

/-- Claim C8 (amended): the text-MIME test returns true iff the string
begins with `text/`, or equals `UTF8_STRING` or `STRING` — the name
`TEXT` is not recognized. -/
theorem text_mime_spec :
    ∀ m : String, isTextMime m = true ↔
      (("text/").data.isPrefixOf m.data = true ∨ m = "UTF8_STRING" ∨
        m = "STRING") := by
  intro m
  simp [isTextMime, Bool.or_eq_true, beq_iff_eq, or_assoc]

/-- Counterexample for C9: the constructor `new_binary` yields a
`Binary` value whose MIME map is empty. -/
theorem new_binary_empty_map_cex :
    ClipboardContent.new_binary = ClipboardContent.binary [] ∧
    ClipboardContent.new_binary.mime_types = [] :=
  ⟨rfl, rfl⟩

/-- Claim C9 (amended): every `Binary` content the program transmits on
the sync channel — all of which the drain worker constructs — has a
non-empty MIME map; the constructor `new_binary`, however, yields
`Binary` with an empty map, to be populated afterwards by `add_mime`. -/
theorem drain_binary_nonempty :
    ∀ (recv : String → Bytes) (content : ClipboardContent)
      (t : ClipboardType) (m : MimeMap),
      drainWorker recv = some (.waylandToX11 content t) →
      content = .binary m → m ≠ [] := by
  intro recv content t m h hc
  subst hc
  unfold drainWorker at h
  rcases hpr : drainProbe recv with ⟨all, has⟩
  rw [hpr] at h
  dsimp only at h
  rcases Option.map_eq_some'.mp h with ⟨c, hc1, hc2⟩
  have hcb : c = ClipboardContent.binary m := by
    injection hc2 with h1 h2
  subst hcb
  obtain ⟨hma, hnil⟩ := drainDecision_binary hc1
  rw [hma]
  exact hnil

/-- Witness for C9 (amended): an offer delivering only `image/png`
bytes yields a one-entry `Binary` map, which is non-empty. -/
theorem drain_binary_nonempty_witness :
    ([(("image/png" : String), [1])] : MimeMap) ≠ [] :=
  drain_binary_nonempty (fun m => if m == "image/png" then [1] else [])
    (ClipboardContent.binary [("image/png", [1])]) .clipboard
    [("image/png", [1])] (by rfl) rfl

/-- Claim C10: on `Text` and `Empty` contents, `add_mime` leaves the
value completely unchanged, and `get_mime` returns `none` and
`mime_types` returns the empty list, whatever MIME string is queried. -/
theorem text_empty_frame :
    ∀ (s : Bytes) (mime : String) (data : Bytes),
      (ClipboardContent.text s).add_mime mime data =
        ClipboardContent.text s ∧
      ClipboardContent.empty.add_mime mime data = ClipboardContent.empty ∧
      (ClipboardContent.text s).get_mime mime = none ∧
      ClipboardContent.empty.get_mime mime = none ∧
      (ClipboardContent.text s).mime_types = [] ∧
      ClipboardContent.empty.mime_types = [] :=
  fun _ _ _ => ⟨rfl, rfl, rfl, rfl, rfl, rfl⟩

end ClipBridge
